import Mathlib

/-!
Verification of the reactive-idb adapter (a reactive façade over the
browser-native IndexedDB API).  The definitions below are a shallow
embedding of the TypeScript sources:

* `wrapRequest` (src/lib/utils/wrap-request.util.ts) — the Request Adapter,
  converting an IDBRequest's success/error callbacks into observer events;
* `ReactiveIDBDatabase.create` — version computation and the
  `onupgradeneeded` migration walker;
* `ReactiveIDBObjectStore` / `ReactiveIDBIndex` — `put$`/`get$` with the
  serialize/deserialize transformer;
* `transaction$`, its unsubscription teardown, and `clear$`.

Observables are modelled by the trace of events an observer receives over
one subscription; the host platform (IndexedDB itself) is modelled by the
outcomes it can deliver to the registered callbacks.
-/

/-- A platform failure reason (a DOMException); only its identity matters,
the adapter passes it through untranslated. -/
structure DOMExceptionModel where
  name : String
  deriving DecidableEq, Repr

/-- Events received by an RxJS observer during one subscription. -/
inductive RxEvent (α : Type) where
  | next (value : α)
  | complete
  | error (e : DOMExceptionModel)
  deriving DecidableEq, Repr

/-- State of an RxJS Subscriber: the trace of delivered events and the
closed flag (set once a terminal event has been delivered). -/
structure ObserverState (α : Type) where
  emitted : List (RxEvent α)
  closed : Bool
  deriving DecidableEq, Repr

def ObserverState.init {α : Type} : ObserverState α :=
  { emitted := [], closed := false }

/-- `observer.next(a)`: delivered only while the subscriber is open. -/
def obsNext {α : Type} (s : ObserverState α) (a : α) : ObserverState α :=
  if s.closed then s else { s with emitted := s.emitted ++ [RxEvent.next a] }

/-- `observer.complete()`: terminal, closes the subscriber. -/
def obsComplete {α : Type} (s : ObserverState α) : ObserverState α :=
  if s.closed then s
  else { emitted := s.emitted ++ [RxEvent.complete], closed := true }

/-- `observer.error(e)`: terminal, closes the subscriber. -/
def obsError {α : Type} (s : ObserverState α) (e : DOMExceptionModel) :
    ObserverState α :=
  if s.closed then s
  else { emitted := s.emitted ++ [RxEvent.error e], closed := true }

/-- A callback firing of the underlying IDBRequest: `onsuccess` with the
request's current result, or `onerror` with the request's error. -/
inductive IDBRequestEvent (α : Type) where
  | success (result : α)
  | failure (err : DOMExceptionModel)
  deriving DecidableEq, Repr

/-- One firing of the handlers installed by `wrapRequest` (source:
wrap-request.util.ts).  On success the observer receives the result and,
when `complete` is set or the observer is already closed, a completion;
on error it receives the request's error object. -/
def wrapRequestStep {α : Type} (complete : Bool) (s : ObserverState α) :
    IDBRequestEvent α → ObserverState α
  | IDBRequestEvent.success r =>
      let s1 := obsNext s r
      if complete || s1.closed then obsComplete s1 else s1
  | IDBRequestEvent.failure e => obsError s e

/-- The observer trace produced by one subscription to the observable
returned by `wrapRequest`, given the request callback firings delivered
by the platform. -/
def wrapRequestRun {α : Type} (complete : Bool)
    (events : List (IDBRequestEvent α)) : ObserverState α :=
  events.foldl (wrapRequestStep complete) ObserverState.init

/-- The subscribe body of `wrapRequest` evaluates `request()` exactly once
and installs the handlers on the returned request.  The factory is
modelled as a state transformer so that its invocations are observable:
it receives the ambient state and returns the request (identified by the
callback firings it will deliver) together with the new state. -/
def wrapRequestSubscribe {α σ : Type} (complete : Bool)
    (factory : σ → List (IDBRequestEvent α) × σ) (s0 : σ) :
    ObserverState α × σ :=
  let res := factory s0
  (wrapRequestRun complete res.1, res.2)

/-! ## Schema types and the migration walker

Embedding of the interfaces and of `ReactiveIDBDatabase.create` from
reactive-idb-database.ts (identical logic in create-reactive-database.ts):
version computation and the `onupgradeneeded` handler. -/

/-- A key path: the TypeScript `string | string[]` union. -/
inductive KeyPathModel where
  | single (s : String)
  | multi (ps : List String)
  deriving DecidableEq, Repr

/-- JavaScript truthiness of a key-path value: the empty string is falsy,
every array (including the empty array) is truthy. -/
def KeyPathModel.isFalsy : KeyPathModel → Bool
  | KeyPathModel.single s => s == ""
  | KeyPathModel.multi _ => false

/-- A key path is non-empty when it is a non-empty string or a non-empty
list of paths. -/
def KeyPathModel.nonEmpty : KeyPathModel → Bool
  | KeyPathModel.single s => !(s == "")
  | KeyPathModel.multi ps => !ps.isEmpty

/-- `IDBIndexParameters`: uniqueness / multi-entry flags (optional in JS). -/
structure IDBIndexParametersModel where
  unique : Option Bool := none
  multiEntry : Option Bool := none
  deriving DecidableEq, Repr

/-- `IDBObjectStoreParameters`: optional key path and auto-increment flag. -/
structure IDBObjectStoreParametersModel where
  keyPath : Option KeyPathModel := none
  autoIncrement : Option Bool := none
  deriving DecidableEq, Repr

/-- `ReactiveIDBIndexSchema`: object form of an index definition; the
`keyPath` and `options` fields may be absent. -/
structure ReactiveIDBIndexSchema where
  name : String
  keyPath : Option KeyPathModel := none
  options : Option IDBIndexParametersModel := none
  deriving DecidableEq, Repr

/-- An element of a store schema's `indexes` list: the TypeScript union
`ReactiveIDBIndexSchema | string`. -/
inductive IndexSchemaEntry where
  | str (s : String)
  | obj (i : ReactiveIDBIndexSchema)
  deriving DecidableEq, Repr

/-- `ReactiveIDBStoreSchema`: object form of a store definition. -/
structure ReactiveIDBStoreSchema where
  name : String
  options : Option IDBObjectStoreParametersModel := none
  indexes : Option (List IndexSchemaEntry) := none
  deriving DecidableEq, Repr

/-- An element of a schema entry's `stores` list: the TypeScript union
`ReactiveIDBStoreSchema | string`. -/
inductive StoreSchemaEntry where
  | str (s : String)
  | obj (st : ReactiveIDBStoreSchema)
  deriving DecidableEq, Repr

/-- `ReactiveIDBDatabaseSchema`: a Schema Version Entry. -/
structure ReactiveIDBDatabaseSchema where
  version : Nat
  stores : List StoreSchemaEntry
  deriving DecidableEq, Repr

/-- `Math.max(...opts.schema.map((schema) => schema.version), 1)`:
the version at which the open request is issued. -/
def computeVersion (schema : List ReactiveIDBDatabaseSchema) : Nat :=
  (schema.map ReactiveIDBDatabaseSchema.version).foldr max 1

/-- Normalization of one element of a store's `indexes` list, from the
`onupgradeneeded` handler: a bare string `s` becomes
`{ name: s, keyPath: s }`, an object passes through unchanged. -/
def normalizeIndex : IndexSchemaEntry → ReactiveIDBIndexSchema
  | IndexSchemaEntry.str s =>
      { name := s, keyPath := some (KeyPathModel.single s), options := none }
  | IndexSchemaEntry.obj i => i

/-- The key-path argument of `createIndex`: the JS expression
`index.keyPath || index.name` (falsy key paths — absent or the empty
string — fall back to the index's name). -/
def resolveKeyPath (kp : Option KeyPathModel) (nm : String) : KeyPathModel :=
  match kp with
  | none => KeyPathModel.single nm
  | some k => if k.isFalsy then KeyPathModel.single nm else k

/-- The arguments of one `createIndex` call issued during the upgrade
(name, resolved key path, options, as passed to the host; whether the
call succeeds is the host's decision, modelled by `hostCreateIndex`). -/
structure CreatedIndex where
  name : String
  keyPath : KeyPathModel
  options : Option IDBIndexParametersModel
  deriving DecidableEq, Repr

/-- The arguments of one `createObjectStore` call issued during the
upgrade, with the `createIndex` calls issued on the resulting store. -/
structure CreatedStore where
  name : String
  options : Option IDBObjectStoreParametersModel
  indexes : List CreatedIndex
  deriving DecidableEq, Repr

/-- Creation calls issued for one element of a schema entry's `stores`
list: a bare string yields a store call named by it with empty options
and no indexes; an object yields the store call then one index call per
(normalized) index, with the resolved key path. -/
def applyStore : StoreSchemaEntry → CreatedStore
  | StoreSchemaEntry.str s =>
      { name := s, options := some {}, indexes := [] }
  | StoreSchemaEntry.obj st =>
      { name := st.name
        options := st.options
        indexes := (st.indexes.getD []).map (fun ie =>
          let i := normalizeIndex ie
          { name := i.name
            keyPath := resolveKeyPath i.keyPath i.name
            options := i.options }) }

/-- The schema entries the `onupgradeneeded` handler applies:
`opts.schema.filter((schema) => schema.version > versionChange.oldVersion)`.
No sorting is performed; the supplied order is kept. -/
def appliedSchemas (schema : List ReactiveIDBDatabaseSchema)
    (oldVersion : Nat) : List ReactiveIDBDatabaseSchema :=
  schema.filter (fun s => oldVersion < s.version)

/-- The sequence of store-creation calls the `onupgradeneeded` handler
issues, given the prior stored version (their execution by the host,
including key-path validation, is `upgradeOutcome`). -/
def onUpgradeNeeded (schema : List ReactiveIDBDatabaseSchema)
    (oldVersion : Nat) : List CreatedStore :=
  (appliedSchemas schema oldVersion).flatMap
    (fun s => s.stores.map applyStore)

/-- Insertion of a schema entry into a version-sorted list (ascending). -/
def insertByVersion (e : ReactiveIDBDatabaseSchema) :
    List ReactiveIDBDatabaseSchema → List ReactiveIDBDatabaseSchema
  | [] => [e]
  | f :: rest =>
      if e.version ≤ f.version then e :: f :: rest
      else f :: insertByVersion e rest

/-- Sorting schema entries by ascending version (insertion sort). -/
def sortByVersion : List ReactiveIDBDatabaseSchema →
    List ReactiveIDBDatabaseSchema
  | [] => []
  | e :: rest => insertByVersion e (sortByVersion rest)

/-- Modelled from the spec: the spec's description of the upgrade walker
("iterate Schema Version Entries in ascending version order", "the
factory must sort/filter by version before applying") — filter the
entries above the prior version, sort them by ascending version, then
apply each.  This definition follows the spec's words, to be compared
with `onUpgradeNeeded`, which follows the source. -/
def onUpgradeNeededSpec (schema : List ReactiveIDBDatabaseSchema)
    (oldVersion : Nat) : List CreatedStore :=
  (sortByVersion (appliedSchemas schema oldVersion)).flatMap
    (fun s => s.stores.map applyStore)

/-! ### Host execution of the issued creation calls

The host validates every key-path argument: an invalid one makes
`createObjectStore`/`createIndex` throw a SyntaxError, which propagates
out of the `onupgradeneeded` handler and aborts the upgrade transaction,
rolling back every creation.  Per the IndexedDB key-path grammar a
string is a valid key path (the empty string included) while a sequence
is valid only when non-empty; identifier-level syntax of the strings is
not modelled, as nothing here depends on it. -/

/-- Host model: validity of a key path argument — any string (the empty
string included) is valid, a sequence is valid only when non-empty. -/
def KeyPathModel.isValidKeyPath : KeyPathModel → Bool
  | KeyPathModel.single _ => true
  | KeyPathModel.multi ps => !ps.isEmpty

/-- Host model: `createObjectStore` — validates the `keyPath` option when
one is given, throwing a SyntaxError on an invalid one. -/
def hostCreateObjectStore (cs : CreatedStore) :
    Except DOMExceptionModel Unit :=
  match cs.options with
  | some o =>
      match o.keyPath with
      | some kp =>
          if kp.isValidKeyPath then Except.ok ()
          else Except.error { name := "SyntaxError" }
      | none => Except.ok ()
  | none => Except.ok ()

/-- Host model: one issued `createIndex` call — the host validates the
key-path argument, throwing a SyntaxError on an invalid one (notably an
empty sequence); on success the index comes to exist as issued. -/
def hostCreateIndex (ci : CreatedIndex) :
    Except DOMExceptionModel CreatedIndex :=
  if ci.keyPath.isValidKeyPath then Except.ok ci
  else Except.error { name := "SyntaxError" }

/-- Host model: the `createIndex` calls issued on one store, run in
order; the first exception propagates. -/
def hostRunIndexes :
    List CreatedIndex → Except DOMExceptionModel (List CreatedIndex)
  | [] => Except.ok []
  | ci :: rest =>
      match hostCreateIndex ci with
      | Except.error e => Except.error e
      | Except.ok ci1 =>
          match hostRunIndexes rest with
          | Except.error e => Except.error e
          | Except.ok rest1 => Except.ok (ci1 :: rest1)

/-- Host model: the creation calls issued for one store — the store is
created, then its indexes in order; the first exception propagates. -/
def hostApplyStore (cs : CreatedStore) :
    Except DOMExceptionModel CreatedStore :=
  match hostCreateObjectStore cs with
  | Except.error e => Except.error e
  | Except.ok _ =>
      match hostRunIndexes cs.indexes with
      | Except.error e => Except.error e
      | Except.ok idxs => Except.ok { cs with indexes := idxs }

/-- Host model: the issued creation calls of every store, in order; the
first exception propagates. -/
def hostRunStores :
    List CreatedStore → Except DOMExceptionModel (List CreatedStore)
  | [] => Except.ok []
  | cs :: rest =>
      match hostApplyStore cs with
      | Except.error e => Except.error e
      | Except.ok cs1 =>
          match hostRunStores rest with
          | Except.error e => Except.error e
          | Except.ok rest1 => Except.ok (cs1 :: rest1)

/-- The realized outcome of the `onupgradeneeded` handler: the stores and
indexes that exist once the upgrade commits — every issued creation,
when all key paths are valid — or the exception that aborted the upgrade
transaction (everything rolls back; no store or index is created). -/
def upgradeOutcome (schema : List ReactiveIDBDatabaseSchema)
    (oldVersion : Nat) : Except DOMExceptionModel (List CreatedStore) :=
  hostRunStores (onUpgradeNeeded schema oldVersion)

/-! ## Object store and index operations

Embedding of `ReactiveIDBObjectStore.put$`/`get$` and
`ReactiveIDBIndex.get$` (reactive-idb-object-store.ts /
reactive-idb-index.ts).  The host store is modelled as an association
list of records with unique keys; `IDBObjectStore.put` replaces the
record with the given key or appends a new one, `IDBObjectStore.get`
returns the stored value or `none` (JS `undefined`) — the host
platform's documented insert-or-replace / fetch-by-key contract. -/

/-- The caller-supplied serialize/deserialize pair (`Transformer<T>`):
`serialize : T → unknown`, `deserialize : unknown → T`. -/
structure Transformer (τ υ : Type) where
  serialize : τ → υ
  deserialize : υ → τ

/-- The default transformer from the `ReactiveIDBObjectStore` constructor:
`serialize: (o) => o, deserialize: (v) => v as T`. -/
def defaultTransformer {τ : Type} : Transformer τ τ :=
  { serialize := fun o => o, deserialize := fun v => v }

/-- Host model: `IDBObjectStore.get` — the value stored at the key, or
`none` when there is no matching record. -/
def idbGetRecord {κ υ : Type} [DecidableEq κ] :
    List (κ × υ) → κ → Option υ
  | [], _ => none
  | (k0, v0) :: rest, k => if k0 = k then some v0 else idbGetRecord rest k

/-- Host model: `IDBObjectStore.put` with an explicit key —
insert-or-replace of the record with that key. -/
def idbPutRecord {κ υ : Type} [DecidableEq κ] :
    List (κ × υ) → κ → υ → List (κ × υ)
  | [], k, v => [(k, v)]
  | (k0, v0) :: rest, k, v =>
      if k0 = k then (k, v) :: rest else (k0, v0) :: idbPutRecord rest k v

/-- Effect of `put$(value, key)` on the backing records:
`this.store.put(this.transformer.serialize(value), key)`. -/
def ReactiveIDBObjectStore.putRun {κ τ υ : Type} [DecidableEq κ]
    (t : Transformer τ υ) (recs : List (κ × υ)) (value : τ) (key : κ) :
    List (κ × υ) :=
  idbPutRecord recs key (t.serialize value)

/-- The map applied by `ReactiveIDBObjectStore.get$` to the request
result: `value !== undefined ? this.transformer.deserialize(value) :
value`. -/
def ReactiveIDBObjectStore.getMap {τ υ : Type} (deserialize : υ → τ)
    (value : Option υ) : Option τ :=
  match value with
  | some v => some (deserialize v)
  | none => none

/-- The map applied by `ReactiveIDBIndex.get$` to the request result:
`value !== undefined ? this.objectStore.transformer.deserialize(value) :
value`. -/
def ReactiveIDBIndex.getMap {τ υ : Type} (deserialize : υ → τ)
    (value : Option υ) : Option τ :=
  match value with
  | some v => some (deserialize v)
  | none => none

/-- Result emitted by `get$(query)` on a store backed by the given
records: the host lookup piped through the store's deserialize map. -/
def ReactiveIDBObjectStore.getRun {κ τ υ : Type} [DecidableEq κ]
    (t : Transformer τ υ) (recs : List (κ × υ)) (key : κ) : Option τ :=
  ReactiveIDBObjectStore.getMap t.deserialize (idbGetRecord recs key)

/-- Result emitted by `ReactiveIDBIndex.get$(key)` on an index backed by
the given (index-key, value) records. -/
def ReactiveIDBIndex.getRun {κ τ υ : Type} [DecidableEq κ]
    (t : Transformer τ υ) (recs : List (κ × υ)) (key : κ) : Option τ :=
  ReactiveIDBIndex.getMap t.deserialize (idbGetRecord recs key)

/-! ## Cursor iteration

`openCursor$` / `openKeyCursor$` call `wrapRequest(..., false)`.  The
host fires the request's `onsuccess` once per cursor position — first at
the first matching record (or with a null result when nothing matches) —
and once more with a null result after the last `continue()` call when
the cursor is exhausted. -/

/-- The request firings delivered for a fully consumed cursor over the
given matching records: one success per record (the consumer calling
`continue()` after each), then a final success with a null result. -/
def cursorEvents {ρ : Type} (records : List ρ) :
    List (IDBRequestEvent (Option ρ)) :=
  records.map (fun r => IDBRequestEvent.success (some r)) ++
    [IDBRequestEvent.success none]

/-- Observer trace of one subscription to `openCursor$` (or
`openKeyCursor$`) when the consumer iterates the cursor to exhaustion:
`wrapRequest` with `complete = false` over the cursor firings. -/
def openCursorRun {ρ : Type} (records : List ρ) :
    ObserverState (Option ρ) :=
  wrapRequestRun false (cursorEvents records)

/-! ## transaction$ and its teardown

Embedding of `ReactiveIDBDatabase.transaction$` (reactive-idb-database.ts):
the subscribe body creates the transaction, registers a listener for the
`complete` event only (the `error` and `abort` listeners are commented
out in the source), emits the transaction handle, and returns a teardown
that calls `abort()` inside try/catch. -/

/-- An opaque transaction handle (identity only). -/
structure TxHandle where
  id : Nat
  deriving DecidableEq, Repr

/-- Lifecycle events fired by the host on an IDBTransaction. -/
inductive TxEvent where
  | complete
  | abort (e : DOMExceptionModel)
  | error (e : DOMExceptionModel)
  deriving DecidableEq, Repr

/-- Reaction of the listeners registered by `transaction$` to one host
transaction event: only `complete` has a registered listener
(`observer.complete()`); `abort` and `error` reach no listener. -/
def txListenerAction {α : Type} (s : ObserverState α) :
    TxEvent → ObserverState α
  | TxEvent.complete => obsComplete s
  | TxEvent.abort _ => s
  | TxEvent.error _ => s

/-- Observer trace of one subscription to `transaction$`: the handle is
emitted synchronously, then the host's transaction events are dispatched
to the registered listeners. -/
def transactionObsRun (tx : TxHandle) (events : List TxEvent) :
    ObserverState TxHandle :=
  events.foldl txListenerAction (obsNext ObserverState.init tx)

/-- Host model: states of an IDBTransaction relevant to `abort()`. -/
inductive TxState where
  | active
  | committed
  | aborted
  deriving DecidableEq, Repr

/-- Host model: `IDBTransaction.abort()` — aborts an active transaction,
throws an InvalidStateError if the transaction has already finished. -/
def idbTransactionAbort : TxState → Except DOMExceptionModel TxState
  | TxState.active => Except.ok TxState.aborted
  | TxState.committed => Except.error { name := "InvalidStateError" }
  | TxState.aborted => Except.error { name := "InvalidStateError" }

/-- The teardown returned by the `transaction$` subscribe body:
`try { transaction.abort(); } catch (e) {}` — the resulting transaction
state, paired with the exception propagated to the unsubscriber (always
`none`: the catch block swallows it). -/
def transactionTeardown (st : TxState) :
    TxState × Option DOMExceptionModel :=
  match idbTransactionAbort st with
  | Except.ok st1 => (st1, none)
  | Except.error _ => (st, none)

/-! ## clear$

Embedding of `ReactiveIDBDatabase.clear$` (reactive-idb-database.ts):
the subscribe body closes the connection, issues
`indexedDB.deleteDatabase(this.name)`, then wires `onerror` to
`observer.error`, `onsuccess` to `observer.next(); observer.complete()`,
and — only when the caller supplied one — `onblocked` to the `onBlocked`
callback. -/

/-- Host outcome of a `deleteDatabase` request as observed through its
callbacks. -/
inductive DeleteOutcome where
  | success
  | failure (e : DOMExceptionModel)
  | blocked
  deriving DecidableEq, Repr

/-- Result of one subscription to `clear$`. -/
structure ClearResult where
  dbClosed : Bool
  deleteIssued : Bool
  observer : ObserverState Unit
  onBlockedCalled : Bool
  deriving DecidableEq, Repr

/-- Run of the `clear$` subscribe body given the host outcome of the
deletion request; `hasOnBlocked` records whether the caller supplied an
`onBlocked` callback. -/
def clearRun (hasOnBlocked : Bool) (outcome : DeleteOutcome) : ClearResult :=
  let s0 : ObserverState Unit := ObserverState.init
  match outcome with
  | DeleteOutcome.success =>
      { dbClosed := true, deleteIssued := true
        observer := obsComplete (obsNext s0 ())
        onBlockedCalled := false }
  | DeleteOutcome.failure e =>
      { dbClosed := true, deleteIssued := true
        observer := obsError s0 e
        onBlockedCalled := false }
  | DeleteOutcome.blocked =>
      { dbClosed := true, deleteIssued := true
        observer := s0
        onBlockedCalled := hasOnBlocked }

/-! ## Auxiliary predicates and concrete example inputs -/

/-- Whether an observer event is a value emission (`next`). -/
def isNextEvent {α : Type} : RxEvent α → Bool
  | RxEvent.next _ => true
  | RxEvent.complete => false
  | RxEvent.error _ => false

/-- An index definition has a non-empty name (an absent or empty-string
key path is fine, as it falls back to the name, and an empty-array key
path never creates an index — it makes the host abort the upgrade). -/
def IndexSchemaEntry.wf : IndexSchemaEntry → Bool
  | IndexSchemaEntry.str s => !(s == "")
  | IndexSchemaEntry.obj i => !(i.name == "")

/-- All index definitions of a store schema entry are benign. -/
def StoreSchemaEntry.wfIndexes : StoreSchemaEntry → Bool
  | StoreSchemaEntry.str _ => true
  | StoreSchemaEntry.obj st => (st.indexes.getD []).all IndexSchemaEntry.wf

/-- Schema supplied out of version order: the version-2 entry before the
version-1 entry. -/
def exSchemaUnsorted : List ReactiveIDBDatabaseSchema :=
  [ { version := 2, stores := [StoreSchemaEntry.str "b"] },
    { version := 1, stores := [StoreSchemaEntry.str "a"] } ]

/-- A two-entry schema (versions 1 and 2). -/
def exSchemaTwo : List ReactiveIDBDatabaseSchema :=
  [ { version := 1, stores := [StoreSchemaEntry.str "a"] },
    { version := 2, stores := [StoreSchemaEntry.str "b"] } ]

/-- Schema with an index given in object form with an explicit empty
array key path (a truthy value in JS, so it is not replaced by the name;
the host rejects it as an invalid key path, aborting the upgrade). -/
def exSchemaEmptyKeyPath : List ReactiveIDBDatabaseSchema :=
  [ { version := 1
      stores := [StoreSchemaEntry.obj
        { name := "s"
          options := none
          indexes := some [IndexSchemaEntry.obj
            { name := "idx"
              keyPath := some (KeyPathModel.multi [])
              options := none }] }] } ]

/-- Schema with an index given in object form whose key path is
omitted. -/
def exSchemaOmittedKeyPath : List ReactiveIDBDatabaseSchema :=
  [ { version := 1
      stores := [StoreSchemaEntry.obj
        { name := "s"
          options := none
          indexes := some [IndexSchemaEntry.obj
            { name := "idx", keyPath := none, options := none }] }] } ]

/-- Schema with an index given in object form named by the empty string,
its key path omitted: the resolved key path is the empty string, which
the host accepts (the empty string is a valid key path). -/
def exSchemaEmptyName : List ReactiveIDBDatabaseSchema :=
  [ { version := 1
      stores := [StoreSchemaEntry.obj
        { name := "s"
          options := none
          indexes := some [IndexSchemaEntry.obj
            { name := "", keyPath := none, options := none }] }] } ]

/-! ## Helper lemmas -/

theorem le_foldr_max_one (l : List Nat) (x : Nat) (hx : x ∈ l) :
    x ≤ l.foldr max 1 := by
  induction l with
  | nil => cases hx
  | cons a rest ih =>
    rcases List.mem_cons.mp hx with h | h
    · subst h
      exact Nat.le_max_left _ _
    · exact le_trans (ih h) (Nat.le_max_right _ _)

theorem foldr_max_one_mem (l : List Nat) (hne : l ≠ [])
    (h1 : ∀ x ∈ l, 1 ≤ x) : l.foldr max 1 ∈ l := by
  induction l with
  | nil => exact absurd rfl hne
  | cons a rest ih =>
    cases rest with
    | nil =>
      show max a 1 ∈ [a]
      rw [Nat.max_eq_left (h1 a (by simp))]
      simp
    | cons b rest2 =>
      have ihm := ih (by simp)
        (fun x hx => h1 x (List.mem_cons_of_mem _ hx))
      show max a ((b :: rest2).foldr max 1) ∈ a :: b :: rest2
      rcases Nat.le_total a ((b :: rest2).foldr max 1) with h | h
      · rw [Nat.max_eq_right h]
        exact List.mem_cons_of_mem _ ihm
      · rw [Nat.max_eq_left h]
        exact List.mem_cons_self _ _

theorem idbGetRecord_putRecord {κ υ : Type} [DecidableEq κ]
    (recs : List (κ × υ)) (k : κ) (v : υ) :
    idbGetRecord (idbPutRecord recs k v) k = some v := by
  induction recs with
  | nil => simp [idbPutRecord, idbGetRecord]
  | cons p rest ih =>
    obtain ⟨k0, v0⟩ := p
    by_cases h : k0 = k
    · simp [idbPutRecord, h, idbGetRecord]
    · simp [idbPutRecord, h, idbGetRecord, ih]

theorem foldl_wrapRequestStep_success {ρ : Type} (records : List ρ) :
    ∀ s : ObserverState (Option ρ), s.closed = false →
      List.foldl (wrapRequestStep false) s
          (records.map (fun r => IDBRequestEvent.success (some r))) =
        { emitted := s.emitted ++ records.map (fun r => RxEvent.next (some r))
          closed := false } := by
  induction records with
  | nil =>
    intro s h
    obtain ⟨em, cl⟩ := s
    cases h
    simp
  | cons r rest ih =>
    intro s h
    obtain ⟨em, cl⟩ := s
    cases h
    simp only [List.map_cons, List.foldl_cons]
    have hstep : wrapRequestStep false ⟨em, false⟩
        (IDBRequestEvent.success (some r)) =
        ⟨em ++ [RxEvent.next (some r)], false⟩ := rfl
    rw [hstep, ih ⟨em ++ [RxEvent.next (some r)], false⟩ rfl]
    simp

theorem countP_foldl_txListener (events : List TxEvent) :
    ∀ s : ObserverState TxHandle,
      ((events.foldl txListenerAction s).emitted.countP isNextEvent) =
        s.emitted.countP isNextEvent := by
  induction events with
  | nil => intro s; rfl
  | cons e rest ih =>
    intro s
    rw [List.foldl_cons, ih]
    cases e with
    | complete =>
      show (obsComplete s).emitted.countP isNextEvent = _
      by_cases hc : s.closed
      · simp [obsComplete, hc]
      · simp [obsComplete, hc, List.countP_append, isNextEvent]
    | abort e => rfl
    | error e => rfl

theorem hostRunIndexes_ok (l : List CreatedIndex) :
    ∀ l', hostRunIndexes l = Except.ok l' →
      l' = l ∧ ∀ ci ∈ l, ci.keyPath.isValidKeyPath = true := by
  induction l with
  | nil =>
    intro l' h
    simp only [hostRunIndexes] at h
    cases h
    simp
  | cons ci rest ih =>
    intro l' h
    by_cases hv : ci.keyPath.isValidKeyPath = true
    · have hstep : hostRunIndexes (ci :: rest) =
          match hostRunIndexes rest with
          | Except.error e => Except.error e
          | Except.ok rest1 => Except.ok (ci :: rest1) := by
        simp only [hostRunIndexes, hostCreateIndex, if_pos hv]
      rw [hstep] at h
      cases hr : hostRunIndexes rest with
      | error e =>
        rw [hr] at h
        simp at h
      | ok rest1 =>
        rw [hr] at h
        simp only [Except.ok.injEq] at h
        subst h
        obtain ⟨hl, hall⟩ := ih rest1 hr
        subst hl
        refine ⟨rfl, ?_⟩
        intro x hx
        rcases List.mem_cons.mp hx with h1 | h1
        · subst h1; exact hv
        · exact hall x h1
    · have hstep : hostRunIndexes (ci :: rest) =
          Except.error { name := "SyntaxError" } := by
        simp only [hostRunIndexes, hostCreateIndex, if_neg hv]
      rw [hstep] at h
      simp at h

theorem hostApplyStore_ok (cs st : CreatedStore)
    (h : hostApplyStore cs = Except.ok st) :
    st = cs ∧ ∀ ci ∈ cs.indexes, ci.keyPath.isValidKeyPath = true := by
  unfold hostApplyStore at h
  cases hco : hostCreateObjectStore cs with
  | error e =>
    rw [hco] at h
    simp at h
  | ok u =>
    rw [hco] at h
    cases hr : hostRunIndexes cs.indexes with
    | error e =>
      rw [hr] at h
      simp at h
    | ok idxs =>
      rw [hr] at h
      simp only [Except.ok.injEq] at h
      subst h
      obtain ⟨hl, hall⟩ := hostRunIndexes_ok cs.indexes idxs hr
      subst hl
      refine ⟨?_, hall⟩
      cases cs
      rfl

theorem hostRunStores_ok (l : List CreatedStore) :
    ∀ l', hostRunStores l = Except.ok l' →
      l' = l ∧ ∀ cs ∈ l, ∀ ci ∈ cs.indexes,
        ci.keyPath.isValidKeyPath = true := by
  induction l with
  | nil =>
    intro l' h
    simp only [hostRunStores] at h
    cases h
    simp
  | cons cs rest ih =>
    intro l' h
    simp only [hostRunStores] at h
    cases hcs : hostApplyStore cs with
    | error e =>
      rw [hcs] at h
      simp at h
    | ok cs1 =>
      rw [hcs] at h
      cases hr : hostRunStores rest with
      | error e =>
        rw [hr] at h
        simp at h
      | ok rest1 =>
        rw [hr] at h
        simp only [Except.ok.injEq] at h
        subst h
        obtain ⟨hcs1, hallcs⟩ := hostApplyStore_ok cs cs1 hcs
        obtain ⟨hl, hall⟩ := ih rest1 hr
        subst hcs1
        subst hl
        refine ⟨rfl, ?_⟩
        intro x hx
        rcases List.mem_cons.mp hx with h1 | h1
        · subst h1; exact hallcs
        · exact hall x h1

theorem normalizeIndex_name_ne (ie : IndexSchemaEntry)
    (h : ie.wf = true) : ((normalizeIndex ie).name == "") = false := by
  cases ie with
  | str s => simpa [IndexSchemaEntry.wf, normalizeIndex] using h
  | obj i => simpa [IndexSchemaEntry.wf, normalizeIndex] using h

theorem resolve_nonEmpty_of_valid (kp : Option KeyPathModel) (nm : String)
    (hnm : (nm == "") = false)
    (hv : (resolveKeyPath kp nm).isValidKeyPath = true) :
    (resolveKeyPath kp nm).nonEmpty = true := by
  cases kp with
  | none => simp [resolveKeyPath, KeyPathModel.nonEmpty, hnm]
  | some k =>
    by_cases hf : k.isFalsy = true
    · simp [resolveKeyPath, hf, KeyPathModel.nonEmpty, hnm]
    · cases k with
      | single s =>
        have hs : (s == "") = false := by
          simpa [KeyPathModel.isFalsy] using hf
        simp [resolveKeyPath, KeyPathModel.isFalsy, hs,
          KeyPathModel.nonEmpty]
      | multi ps =>
        have hps : KeyPathModel.isValidKeyPath (KeyPathModel.multi ps)
            = true := by
          simpa [resolveKeyPath, KeyPathModel.isFalsy] using hv
        simp only [resolveKeyPath, KeyPathModel.isFalsy, Bool.false_eq_true,
          if_false, KeyPathModel.nonEmpty]
        simpa [KeyPathModel.isValidKeyPath] using hps

/-! ## Claim theorems -/

/-- C1 counterexample: for the schema supplied out of version order
(`exSchemaUnsorted`, version 2 before version 1) and prior version 0,
the creations performed by the `onupgradeneeded` handler differ from the
creations the claim demands (entries sorted by ascending version before
applying): the handler applies the version-2 entry first. -/
theorem upgrade_not_sorted_cex :
    onUpgradeNeeded exSchemaUnsorted 0 ≠ onUpgradeNeededSpec exSchemaUnsorted 0 ∧
      onUpgradeNeeded exSchemaUnsorted 0 =
        [ { name := "b", options := some {}, indexes := [] },
          { name := "a", options := some {}, indexes := [] } ] := by
  constructor
  · decide
  · rfl

/-- C1 (amended): the `onupgradeneeded` handler applies exactly those
Schema Version Entries whose version exceeds the prior stored version W,
in the order they were supplied (filtering only, without sorting); an
entry with version ≤ W is never applied, and each applied entry's Store
Definitions (with their nested Index Definitions) are created. -/
theorem upgrade_filter_apply (schema : List ReactiveIDBDatabaseSchema)
    (old : Nat) :
    List.Sublist (appliedSchemas schema old) schema ∧
      (∀ e, e ∈ appliedSchemas schema old ↔ (e ∈ schema ∧ old < e.version)) ∧
      (∀ e ∈ schema, old < e.version →
        ∀ st ∈ e.stores, applyStore st ∈ onUpgradeNeeded schema old) := by
  refine ⟨List.filter_sublist _, ?_, ?_⟩
  · intro e
    simp [appliedSchemas, List.mem_filter]
  · intro e he hv st hst
    unfold onUpgradeNeeded
    refine List.mem_flatMap.mpr ⟨e, ?_, ?_⟩
    · simp [appliedSchemas, List.mem_filter, he, hv]
    · exact List.mem_map_of_mem _ hst

/-- C1 witness: applying the amended theorem at the concrete unsorted
schema: the store of the version-2 entry is created when the prior
version is 0. -/
theorem upgrade_filter_apply_witness :
    applyStore (StoreSchemaEntry.str "b") ∈ onUpgradeNeeded exSchemaUnsorted 0 :=
  (upgrade_filter_apply exSchemaUnsorted 0).2.2
    { version := 2, stores := [StoreSchemaEntry.str "b"] }
    (by decide) (by decide) (StoreSchemaEntry.str "b") (by decide)

/-- C2: the version at which the connection factory issues the open
request is the maximum version across the supplied Schema Version
Entries (all of which have positive version, per the data model), and is
1 when the schema list is empty. -/
theorem version_is_max_of_schema :
    (∀ schema : List ReactiveIDBDatabaseSchema, schema ≠ [] →
      (∀ e ∈ schema, 1 ≤ e.version) →
      ((∃ e ∈ schema, e.version = computeVersion schema) ∧
        ∀ e ∈ schema, e.version ≤ computeVersion schema)) ∧
      computeVersion [] = 1 := by
  constructor
  · intro schema hne h1
    constructor
    · have hmem := foldr_max_one_mem
        (schema.map ReactiveIDBDatabaseSchema.version)
        (by simpa using hne)
        (by
          intro x hx
          obtain ⟨e, he, rfl⟩ := List.mem_map.mp hx
          exact h1 e he)
      obtain ⟨e, he, hv⟩ := List.mem_map.mp hmem
      exact ⟨e, he, hv⟩
    · intro e he
      exact le_foldr_max_one _ _ (List.mem_map_of_mem _ he)
  · rfl

/-- C2 witness: at the concrete two-entry schema (versions 1 and 2), the
computed version is attained by an entry and bounds every entry. -/
theorem version_is_max_of_schema_witness :
    (∃ e ∈ exSchemaTwo, e.version = computeVersion exSchemaTwo) ∧
      ∀ e ∈ exSchemaTwo, e.version ≤ computeVersion exSchemaTwo :=
  version_is_max_of_schema.1 exSchemaTwo (by decide) (by decide)

/-- C3: `put$` stores the serialized value at the key, so a subsequent
`get$` of the same key emits `deserialize (serialize v)`; with the
default identity transformer the read value equals the written one. -/
theorem put_get_roundtrip :
    (∀ (κ τ υ : Type) (_inst : DecidableEq κ) (t : Transformer τ υ)
        (recs : List (κ × υ)) (v : τ) (k : κ),
      idbGetRecord (ReactiveIDBObjectStore.putRun t recs v k) k =
          some (t.serialize v) ∧
        ReactiveIDBObjectStore.getRun t
            (ReactiveIDBObjectStore.putRun t recs v k) k =
          some (t.deserialize (t.serialize v))) ∧
      ∀ (κ τ : Type) (_inst : DecidableEq κ) (recs : List (κ × τ)) (v : τ)
        (k : κ),
        ReactiveIDBObjectStore.getRun defaultTransformer
            (ReactiveIDBObjectStore.putRun defaultTransformer recs v k) k =
          some v := by
  constructor
  · intro κ τ υ _inst t recs v k
    have hstore := idbGetRecord_putRecord recs k (t.serialize v)
    refine ⟨hstore, ?_⟩
    simp [ReactiveIDBObjectStore.getRun, ReactiveIDBObjectStore.putRun,
      ReactiveIDBObjectStore.getMap, hstore]
  · intro κ τ _inst recs v k
    have hstore := idbGetRecord_putRecord recs k v
    simp [ReactiveIDBObjectStore.getRun, ReactiveIDBObjectStore.putRun,
      ReactiveIDBObjectStore.getMap, defaultTransformer, hstore]

/-- C4 counterexample: when the host aborts the transaction, the
observable returned by `transaction$` receives no error (its trace stays
at the single handle emission): the claim that it errors on abort/failure
fails, because the source registers a listener for the `complete` event
only. -/
theorem transaction_no_error_on_abort_cex :
    (transactionObsRun { id := 0 }
        [TxEvent.abort { name := "AbortError" }]).emitted =
      [RxEvent.next { id := 0 }] ∧
      ∀ e, RxEvent.error e ∉
        (transactionObsRun { id := 0 }
          [TxEvent.abort { name := "AbortError" }]).emitted := by
  refine ⟨rfl, ?_⟩
  intro e
  intro hmem
  rw [show (transactionObsRun { id := 0 }
      [TxEvent.abort { name := "AbortError" }]).emitted =
      [RxEvent.next { id := 0 }] from rfl] at hmem
  simp at hmem

/-- C4 (amended): `transaction$` emits exactly one Transaction Handle and
completes when the transaction commits; when the transaction aborts or
fails, no further event is delivered (in particular the observable never
errors). -/
theorem transaction_observable_events (tx : TxHandle)
    (events : List TxEvent) :
    (transactionObsRun tx events).emitted.countP isNextEvent = 1 ∧
      (events = [TxEvent.complete] →
        (transactionObsRun tx events).emitted =
          [RxEvent.next tx, RxEvent.complete]) ∧
      (∀ e, events = [TxEvent.abort e] →
        (transactionObsRun tx events).emitted = [RxEvent.next tx]) ∧
      (∀ e, events = [TxEvent.error e] →
        (transactionObsRun tx events).emitted = [RxEvent.next tx]) := by
  refine ⟨?_, ?_, ?_, ?_⟩
  · rw [transactionObsRun, countP_foldl_txListener]
    rfl
  · intro h; subst h; rfl
  · intro e h; subst h; rfl
  · intro e h; subst h; rfl

/-- C4 witness: at a committing transaction, the trace is the handle
emission followed by completion. -/
theorem transaction_observable_events_witness :
    (transactionObsRun { id := 1 } [TxEvent.complete]).emitted =
      [RxEvent.next { id := 1 }, RxEvent.complete] :=
  (transaction_observable_events { id := 1 } [TxEvent.complete]).2.1 rfl

/-- C5: the subscribe body of `wrapRequest` invokes the request factory
exactly once (the counting factory's state advances by exactly one), and
in single-shot mode (`complete = true`) a success firing emits the
result then completes while an error firing terminates the stream with
the request's error object, untranslated. -/
theorem wrapRequest_single_shot :
    (∀ (α : Type) (evs : List (IDBRequestEvent α)) (c : Bool) (n : Nat),
      (wrapRequestSubscribe c (fun m => (evs, m + 1)) n).2 = n + 1) ∧
      (∀ (α : Type) (r : α),
        (wrapRequestRun true [IDBRequestEvent.success r]).emitted =
          [RxEvent.next r, RxEvent.complete]) ∧
      ∀ (α : Type) (e : DOMExceptionModel),
        (wrapRequestRun (α := α) true [IDBRequestEvent.failure e]).emitted =
          [RxEvent.error e] := by
  refine ⟨?_, ?_, ?_⟩
  · intro α evs c n; rfl
  · intro α r; rfl
  · intro α e; rfl

/-- C6: the teardown installed by `transaction$` calls `abort()` on the
underlying transaction — aborting it when it is still active — and when
the transaction has already finished (so that `abort()` throws), the
exception is swallowed and the state is left unchanged. -/
theorem transaction_teardown_abort :
    transactionTeardown TxState.active = (TxState.aborted, none) ∧
      (∀ st, (transactionTeardown st).2 = none) ∧
      ∀ st, st ≠ TxState.active → transactionTeardown st = (st, none) := by
  refine ⟨rfl, ?_, ?_⟩
  · intro st; cases st <;> rfl
  · intro st h
    cases st with
    | active => exact absurd rfl h
    | committed => rfl
    | aborted => rfl

/-- C6 witness: tearing down after the transaction committed is a silent
no-op. -/
theorem transaction_teardown_abort_witness :
    transactionTeardown TxState.committed = (TxState.committed, none) :=
  transaction_teardown_abort.2.2 TxState.committed (by decide)

/-- C7 counterexample: when the host reports the deletion as blocked,
the observable returned by `clear$` receives no event at all — in
particular it does not error, contrary to the claim; the blocked signal
goes only to the optional `onBlocked` callback. -/
theorem clear_blocked_no_error_cex :
    (clearRun true DeleteOutcome.blocked).observer.emitted = [] ∧
      (clearRun true DeleteOutcome.blocked).onBlockedCalled = true ∧
      ∀ e, RxEvent.error e ∉
        (clearRun true DeleteOutcome.blocked).observer.emitted := by
  refine ⟨rfl, rfl, ?_⟩
  intro e hmem
  rw [show (clearRun true DeleteOutcome.blocked).observer.emitted = []
    from rfl] at hmem
  simp at hmem

/-- C7 (amended): `clear$` closes the connection and issues a deletion of
the named database; its observable completes when deletion succeeds and
errors when deletion fails; when deletion is blocked, the optional
`onBlocked` callback is invoked and the observable receives no event. -/
theorem clear_close_delete (hb : Bool) (outcome : DeleteOutcome) :
    (clearRun hb outcome).dbClosed = true ∧
      (clearRun hb outcome).deleteIssued = true ∧
      (outcome = DeleteOutcome.success →
        (clearRun hb outcome).observer.emitted =
          [RxEvent.next (), RxEvent.complete]) ∧
      (∀ e, outcome = DeleteOutcome.failure e →
        (clearRun hb outcome).observer.emitted = [RxEvent.error e]) ∧
      (outcome = DeleteOutcome.blocked →
        (clearRun hb outcome).observer.emitted = [] ∧
          (clearRun hb outcome).onBlockedCalled = hb) := by
  refine ⟨?_, ?_, ?_, ?_, ?_⟩
  · cases outcome <;> rfl
  · cases outcome <;> rfl
  · intro h; subst h; rfl
  · intro e h; subst h; rfl
  · intro h; subst h; exact ⟨rfl, rfl⟩

/-- C7 witness: on successful deletion the observable emits then
completes. -/
theorem clear_close_delete_witness :
    (clearRun false DeleteOutcome.success).observer.emitted =
      [RxEvent.next (), RxEvent.complete] :=
  (clear_close_delete false DeleteOutcome.success).2.2.1 rfl

/-- C8: one subscription to `openCursor$`/`openKeyCursor$`, with the
consumer advancing the cursor to exhaustion, emits each cursor position
in turn on the same observable sequence and terminates the sequence with
a null emission; in particular the first emission is null exactly when
no record matches, and otherwise is the cursor at the first record. -/
theorem openCursor_sequence :
    ∀ (ρ : Type) (records : List ρ),
      (openCursorRun records).emitted =
          records.map (fun r => RxEvent.next (some r)) ++
            [RxEvent.next none] ∧
        (openCursorRun records).emitted.head? =
          (match records with
            | [] => some (RxEvent.next none)
            | r :: _ => some (RxEvent.next (some r))) ∧
        (openCursorRun records).emitted.getLast? =
          some (RxEvent.next none) := by
  intro ρ records
  have htrace : (openCursorRun records).emitted =
      records.map (fun r => RxEvent.next (some r)) ++ [RxEvent.next none] := by
    show (wrapRequestRun false (cursorEvents records)).emitted = _
    rw [wrapRequestRun, cursorEvents, List.foldl_append,
      foldl_wrapRequestStep_success records ObserverState.init rfl]
    show (wrapRequestStep false
        ⟨[] ++ records.map (fun r => RxEvent.next (some r)), false⟩
        (IDBRequestEvent.success none)).emitted = _
    simp [wrapRequestStep, obsNext]
  refine ⟨htrace, ?_, ?_⟩
  · rw [htrace]
    cases records with
    | nil => rfl
    | cons r rest => rfl
  · rw [htrace]
    exact List.getLast?_concat _

/-- C9 counterexample: an Index Definition in object form named by the
empty string with its key path omitted resolves — via the
name-defaulting fallback — to the empty string, which the host accepts
as a valid key path, so the upgrade succeeds and the migration walker
creates an index whose key path is empty, contradicting the claim that
every index created by the walker has a non-empty key path. -/
theorem index_empty_keypath_cex :
    upgradeOutcome exSchemaEmptyName 0 =
      Except.ok
        [ { name := "s", options := none
            indexes := [ { name := ""
                           keyPath := KeyPathModel.single ""
                           options := none } ] } ] ∧
      KeyPathModel.nonEmpty (KeyPathModel.single "") = false := by
  exact ⟨rfl, rfl⟩

/-- The empty-array case for contrast: an explicit empty-array key path
is truthy in JS, so it is not replaced by the index's name, but it is
not a valid key path for the host — `createIndex` throws a SyntaxError
and the upgrade aborts, creating nothing. -/
theorem upgrade_aborts_on_invalid_keypath :
    upgradeOutcome exSchemaEmptyKeyPath 0 =
      Except.error { name := "SyntaxError" } := rfl

/-- C9 (amended): an Index Definition in object form whose keyPath field
is omitted defaults to the index's name (the same defaulting as the
bare-string form); and every index created by the migration walker —
that is, existing in a successfully realized upgrade — has a non-empty
key path provided each supplied index definition has a non-empty name
(an index named the empty string is created with the empty string as
key path; an explicit empty-array key path never creates an index,
since the host rejects it and aborts the upgrade). -/
theorem index_keypath_defaults :
    (∀ nm, resolveKeyPath none nm = KeyPathModel.single nm) ∧
      ∀ (schema : List ReactiveIDBDatabaseSchema) (old : Nat)
        (created : List CreatedStore),
        upgradeOutcome schema old = Except.ok created →
        (∀ e ∈ schema, ∀ se ∈ e.stores, se.wfIndexes = true) →
        ∀ st ∈ created, ∀ ci ∈ st.indexes, ci.keyPath.nonEmpty = true := by
  constructor
  · intro nm; rfl
  · intro schema old created hok hwf st hst ci hci
    unfold upgradeOutcome at hok
    obtain ⟨hcreated, hvalid⟩ :=
      hostRunStores_ok (onUpgradeNeeded schema old) created hok
    subst hcreated
    have hv : ci.keyPath.isValidKeyPath = true := hvalid st hst ci hci
    unfold onUpgradeNeeded at hst
    obtain ⟨e, he, hst2⟩ := List.mem_flatMap.mp hst
    obtain ⟨se, hse, rfl⟩ := List.mem_map.mp hst2
    have hwfse : se.wfIndexes = true :=
      hwf e (List.mem_of_mem_filter he) se hse
    cases se with
    | str s => simp [applyStore] at hci
    | obj stS =>
      simp only [applyStore, List.mem_map] at hci
      obtain ⟨ie, hie, rfl⟩ := hci
      have hwfie : ie.wf = true := by
        have hall := (List.all_eq_true.mp
          (by simpa [StoreSchemaEntry.wfIndexes] using hwfse)) ie hie
        simpa using hall
      have hnm := normalizeIndex_name_ne ie hwfie
      exact resolve_nonEmpty_of_valid _ _ hnm (by simpa using hv)

/-- C9 witness: at the concrete schema whose index omits its key path,
the upgrade succeeds and the created index's key path (the index's
name) is non-empty. -/
theorem index_keypath_defaults_witness :
    KeyPathModel.nonEmpty
      (CreatedIndex.keyPath
        { name := "idx", keyPath := KeyPathModel.single "idx"
          options := none }) = true :=
  index_keypath_defaults.2 exSchemaOmittedKeyPath 0
    [ { name := "s", options := none
        indexes := [ { name := "idx", keyPath := KeyPathModel.single "idx"
                       options := none } ] } ]
    (by rfl) (by decide)
    { name := "s", options := none
      indexes := [ { name := "idx", keyPath := KeyPathModel.single "idx"
                     options := none } ] }
    (by decide)
    { name := "idx", keyPath := KeyPathModel.single "idx", options := none }
    (by decide)

/-- C10: when a `get$` query matches no record (the host returns
`undefined`), both the store's and the index's result maps pass the
missing value through unchanged — the result is independent of the
transformer's deserialize function, which is therefore never invoked on
the missing-record result. -/
theorem get_missing_passthrough :
    (∀ (τ υ : Type) (f g : υ → τ),
      ReactiveIDBObjectStore.getMap f (none : Option υ) = none ∧
        ReactiveIDBObjectStore.getMap f (none : Option υ) =
          ReactiveIDBObjectStore.getMap g none ∧
        ReactiveIDBIndex.getMap f (none : Option υ) = none ∧
        ReactiveIDBIndex.getMap f (none : Option υ) =
          ReactiveIDBIndex.getMap g none) ∧
      ∀ (κ τ υ : Type) (_inst : DecidableEq κ) (t : Transformer τ υ)
        (recs : List (κ × υ)) (k : κ),
        idbGetRecord recs k = none →
        ReactiveIDBObjectStore.getRun t recs k = none ∧
          ReactiveIDBIndex.getRun t recs k = none := by
  constructor
  · intro τ υ f g
    exact ⟨rfl, rfl, rfl, rfl⟩
  · intro κ τ υ _inst t recs k hmiss
    constructor
    · simp [ReactiveIDBObjectStore.getRun, hmiss,
        ReactiveIDBObjectStore.getMap]
    · simp [ReactiveIDBIndex.getRun, hmiss, ReactiveIDBIndex.getMap]

/-- C10 witness: a lookup on an empty backing store emits the missing
value unchanged through both maps. -/
theorem get_missing_passthrough_witness :
    ReactiveIDBObjectStore.getRun defaultTransformer
        ([] : List (Nat × Nat)) 0 = none ∧
      ReactiveIDBIndex.getRun defaultTransformer
        ([] : List (Nat × Nat)) 0 = none :=
  get_missing_passthrough.2 Nat Nat Nat inferInstance defaultTransformer
    [] 0 rfl

/-- C3 witness: writing 5 at key 0 through the default transformer then
reading key 0 returns 5. -/
theorem put_get_roundtrip_witness :
    ReactiveIDBObjectStore.getRun defaultTransformer
      (ReactiveIDBObjectStore.putRun defaultTransformer
        ([] : List (Nat × Nat)) 5 0) 0 = some 5 :=
  put_get_roundtrip.2 Nat Nat inferInstance [] 5 0

/-- C5 witness: a successful single-shot request for the value 3 emits 3
then completes. -/
theorem wrapRequest_single_shot_witness :
    (wrapRequestRun true [IDBRequestEvent.success (3 : Nat)]).emitted =
      [RxEvent.next 3, RxEvent.complete] :=
  wrapRequest_single_shot.2.1 Nat 3

/-- C8 witness: a cursor over one matching record emits that record then
the null terminator. -/
theorem openCursor_sequence_witness :
    (openCursorRun [true]).emitted =
      List.map (fun r => RxEvent.next (some r)) [true] ++
        [RxEvent.next none] :=
  (openCursor_sequence Bool [true]).1
